import Mathlib

/-!
Verification of the NeuroAdaptive Performance Engine specification for the
NeuroLearn repository.

The repository ships the frontend (dashboard, orchestrator, dock) and the
README; the backend engine (`performance_tracker.py`, `adaptive_engine.py`)
is not part of the available sources.  Definitions below that embed the
engine are therefore modelled from the specification text (each carries a
doc comment saying so); the dashboard-side definitions are translated from
the frontend source.

Numbers are modelled with `ℚ` (exact rational arithmetic) except the
cognitive strain index, whose standard-deviation term requires `Real.sqrt`.
-/

namespace NeuroLearn

/-- Arithmetic mean of a list of rationals; `0` for the empty list
(`x / 0 = 0` in `ℚ`). -/
def mean (xs : List ℚ) : ℚ := xs.sum / xs.length

/-- Population variance of a list of rationals; `0` for the empty list. -/
def popVariance (xs : List ℚ) : ℚ :=
  (xs.map (fun x => (x - mean xs) ^ 2)).sum / xs.length

/-- Clamp a rational score into `[0, 100]`. -/
def clampQ (x : ℚ) : ℚ := max 0 (min x 100)

/-- Clamp a real score into `[0, 100]`. -/
noncomputable def clampR (x : ℝ) : ℝ := max 0 (min x 100)

/-- The four pedagogical modes of the adaptive classifier. -/
inductive Mode where
  | fluency_training
  | concept_reinforcement
  | cognitive_overload
  | standard
deriving DecidableEq, Repr

/-- Modelled from the spec: `classify(accuracy_pct, avg_response_time_s)`
of the AdaptiveModeClassifier (`performance_tracker.py` is not in the
available sources).  Ordered decision list, first match wins:
accuracy ≥ 70 and time > 30 → fluency_training; accuracy < 50 and
time < 8 → concept_reinforcement; accuracy < 50 and time > 30 →
cognitive_overload; otherwise standard. -/
def classify (accuracy_pct avg_response_time_s : ℚ) : Mode :=
  if 70 ≤ accuracy_pct ∧ 30 < avg_response_time_s then Mode.fluency_training
  else if accuracy_pct < 50 ∧ avg_response_time_s < 8 then Mode.concept_reinforcement
  else if accuracy_pct < 50 ∧ 30 < avg_response_time_s then Mode.cognitive_overload
  else Mode.standard

/-- Claim C2: `classify` behaves as an ordered decision list with first match
winning: it returns `fluency_training` iff accuracy ≥ 70 and time > 30;
otherwise `concept_reinforcement` iff accuracy < 50 and time < 8; otherwise
`cognitive_overload` iff accuracy < 50 and time > 30; otherwise `standard`.
The boundaries 70, 50, 30 and 8 fall exactly on the side given by the
operators, and `classify 40 35 = cognitive_overload`. -/
theorem classify_decision_list :
    (∀ a t : ℚ, classify a t = Mode.fluency_training ↔ 70 ≤ a ∧ 30 < t) ∧
    (∀ a t : ℚ, classify a t = Mode.concept_reinforcement ↔
      ¬(70 ≤ a ∧ 30 < t) ∧ a < 50 ∧ t < 8) ∧
    (∀ a t : ℚ, classify a t = Mode.cognitive_overload ↔
      ¬(70 ≤ a ∧ 30 < t) ∧ ¬(a < 50 ∧ t < 8) ∧ a < 50 ∧ 30 < t) ∧
    (∀ a t : ℚ, classify a t = Mode.standard ↔
      ¬(70 ≤ a ∧ 30 < t) ∧ ¬(a < 50 ∧ t < 8) ∧ ¬(a < 50 ∧ 30 < t)) ∧
    classify 70 31 = Mode.fluency_training ∧
    classify 50 5 = Mode.standard ∧
    classify 40 30 = Mode.standard ∧
    classify 40 8 = Mode.standard ∧
    classify 40 35 = Mode.cognitive_overload := by
  refine ⟨?_, ?_, ?_, ?_, by decide, by decide, by decide, by decide, by decide⟩ <;>
    intro a t <;> unfold classify <;> split_ifs <;> simp_all

/-- Modelled from the spec: the time sub-score of the
CognitiveStrainEstimator, `min(mean(response_times), 60) / 60 * 100`
(`performance_tracker.py` is not in the available sources). -/
noncomputable def timeComponent (response_times : List ℚ) : ℝ :=
  min ((mean response_times : ℝ)) 60 / 60 * 100

/-- Modelled from the spec: the variance sub-score of the
CognitiveStrainEstimator, `min(population_stddev(response_times), 30) / 30 *
100`, with fewer than 2 response times giving `0`. -/
noncomputable def varianceComponent (response_times : List ℚ) : ℝ :=
  if response_times.length < 2 then 0
  else min (Real.sqrt ((popVariance response_times : ℝ))) 30 / 30 * 100

/-- Modelled from the spec: the mistake-streak sub-score of the
CognitiveStrainEstimator, `min(mistake_streak, 5) / 5 * 100`. -/
def csiStreakComponent (mistake_streak : ℕ) : ℚ :=
  min (mistake_streak : ℚ) 5 / 5 * 100

/-- Modelled from the spec: `compute_csi(response_times, mistake_streak)` of
the CognitiveStrainEstimator (`performance_tracker.py` is not in the
available sources).  Weighted combination 0.40/0.30/0.30 of the three
sub-scores, clamped to `[0, 100]`; an empty response-time list gives `0`. -/
noncomputable def compute_csi (response_times : List ℚ) (mistake_streak : ℕ) : ℝ :=
  if response_times = [] then 0
  else clampR (0.40 * timeComponent response_times +
    0.30 * varianceComponent response_times +
    0.30 * (csiStreakComponent mistake_streak : ℝ))

/-- Claim C1: `compute_csi` is the clamped 0.40/0.30/0.30 weighted sum of the
time, variance and streak sub-scores; fewer than 2 response times force the
variance sub-score to `0`; an empty response-time list gives CSI `0`; and for
response times `[10, 12, 11]` with mistake streak `0` the result is
approximately `8.14` (within `1/100`). -/
theorem compute_csi_spec :
    (∀ (rts : List ℚ) (m : ℕ), rts ≠ [] →
      compute_csi rts m = clampR (0.40 * timeComponent rts +
        0.30 * varianceComponent rts + 0.30 * (csiStreakComponent m : ℝ))) ∧
    (∀ rts : List ℚ, rts.length < 2 → varianceComponent rts = 0) ∧
    (∀ m : ℕ, compute_csi [] m = 0) ∧
    |compute_csi [10, 12, 11] 0 - 8.14| < 1 / 100 := by
  refine ⟨?_, ?_, ?_, ?_⟩
  · intro rts m h
    simp [compute_csi, h]
  · intro rts h
    simp [varianceComponent, h]
  · intro m
    simp [compute_csi]
  · have hmean : mean [10, 12, 11] = 11 := by norm_num [mean]
    have hvar : popVariance [10, 12, 11] = 2 / 3 := by
      norm_num [popVariance, mean]
    have htime : timeComponent [10, 12, 11] = 55 / 3 := by
      rw [timeComponent, hmean]
      rw [show ((11 : ℚ) : ℝ) = 11 by norm_num]
      rw [min_eq_left (by norm_num : (11 : ℝ) ≤ 60)]
      norm_num
    have hcastvar : ((popVariance [10, 12, 11] : ℚ) : ℝ) = 2 / 3 := by
      rw [hvar]; norm_num
    have hsqle : Real.sqrt ((2 : ℝ) / 3) ≤ 30 := by
      rw [Real.sqrt_le_left (by norm_num : (0 : ℝ) ≤ 30)]
      norm_num
    have hvc : varianceComponent [10, 12, 11] =
        Real.sqrt ((2 : ℝ) / 3) * (10 / 3) := by
      rw [varianceComponent]
      rw [if_neg (by norm_num)]
      rw [hcastvar, min_eq_left hsqle]
      ring
    have hsq1 : Real.sqrt ((2 : ℝ) / 3) ≤ 1 := by
      rw [Real.sqrt_le_left (by norm_num : (0 : ℝ) ≤ 1)]
      norm_num
    have hsqnn : 0 ≤ Real.sqrt ((2 : ℝ) / 3) := Real.sqrt_nonneg _
    have hstreak : ((csiStreakComponent 0 : ℚ) : ℝ) = 0 := by
      norm_num [csiStreakComponent]
    have hval : compute_csi [10, 12, 11] 0 = 22 / 3 + Real.sqrt ((2 : ℝ) / 3) := by
      rw [compute_csi, if_neg (by simp), htime, hvc, hstreak, clampR]
      rw [min_eq_left (by nlinarith), max_eq_right (by nlinarith)]
      ring
    rw [hval, abs_lt]
    constructor
    · have hlow : (239 : ℝ) / 300 < Real.sqrt ((2 : ℝ) / 3) := by
        rw [Real.lt_sqrt (by norm_num : (0 : ℝ) ≤ 239 / 300)]
        norm_num
      nlinarith
    · have hhigh : Real.sqrt ((2 : ℝ) / 3) < 49 / 60 := by
        rw [Real.sqrt_lt' (by norm_num : (0 : ℝ) < 49 / 60)]
        norm_num
      nlinarith

/-- Witness for C1: the formula conjunct applied at a concrete input. -/
theorem compute_csi_spec_witness :
    compute_csi [10] 0 = clampR (0.40 * timeComponent [10] +
      0.30 * varianceComponent [10] + 0.30 * (csiStreakComponent 0 : ℝ)) :=
  compute_csi_spec.1 [10] 0 (by simp)

/-- The three difficulty tiers handled by the LevelAdjuster. -/
inductive Level where
  | Beginner
  | Intermediate
  | Advanced
deriving DecidableEq, Repr

/-- One tier up, clamped at `Advanced`. -/
def levelUp : Level → Level
  | Level.Beginner => Level.Intermediate
  | Level.Intermediate => Level.Advanced
  | Level.Advanced => Level.Advanced

/-- One tier down, clamped at `Beginner`. -/
def levelDown : Level → Level
  | Level.Beginner => Level.Beginner
  | Level.Intermediate => Level.Beginner
  | Level.Advanced => Level.Intermediate

/-- Modelled from the spec: `adjust(current_level, mastery_score|null,
accuracy_pct)` of the LevelAdjuster (`adaptive_engine.py` is not in the
available sources).  Mastery present: `> 80` up, `< 50` down, else
unchanged; mastery absent: accuracy `> 80` up, `< 40` down, else
unchanged; tier moves clamp at the ends. -/
def adjust (current_level : Level) (mastery_score : Option ℚ) (accuracy_pct : ℚ) : Level :=
  match mastery_score with
  | some m =>
    if 80 < m then levelUp current_level
    else if m < 50 then levelDown current_level
    else current_level
  | none =>
    if 80 < accuracy_pct then levelUp current_level
    else if accuracy_pct < 40 then levelDown current_level
    else current_level

/-- Claim C6: `adjust` moves up one tier when mastery `> 80`, down one tier
when mastery `< 50`, else is unchanged; with mastery absent the same rule
applies at accuracy `> 80` / `< 40`; `Advanced` cannot move up and
`Beginner` cannot move down (no-op); and no transition skips a tier:
`Beginner` never maps to `Advanced` in one step nor `Advanced` to
`Beginner`. -/
theorem adjust_spec :
    (∀ (c : Level) (m a : ℚ), 80 < m → adjust c (some m) a = levelUp c) ∧
    (∀ (c : Level) (m a : ℚ), m < 50 → adjust c (some m) a = levelDown c) ∧
    (∀ (c : Level) (m a : ℚ), 50 ≤ m → m ≤ 80 → adjust c (some m) a = c) ∧
    (∀ (c : Level) (a : ℚ), 80 < a → adjust c none a = levelUp c) ∧
    (∀ (c : Level) (a : ℚ), a < 40 → adjust c none a = levelDown c) ∧
    (∀ (c : Level) (a : ℚ), 40 ≤ a → a ≤ 80 → adjust c none a = c) ∧
    (∀ (m a : ℚ), 80 < m → adjust Level.Advanced (some m) a = Level.Advanced) ∧
    (∀ (m a : ℚ), m < 50 → adjust Level.Beginner (some m) a = Level.Beginner) ∧
    (∀ (om : Option ℚ) (a : ℚ), adjust Level.Beginner om a ≠ Level.Advanced) ∧
    (∀ (om : Option ℚ) (a : ℚ), adjust Level.Advanced om a ≠ Level.Beginner) := by
  refine ⟨?_, ?_, ?_, ?_, ?_, ?_, ?_, ?_, ?_, ?_⟩
  · intro c m a h
    simp only [adjust, if_pos h]
  · intro c m a h
    simp only [adjust]
    rw [if_neg (by linarith), if_pos h]
  · intro c m a h1 h2
    simp only [adjust]
    rw [if_neg (by linarith), if_neg (by linarith)]
  · intro c a h
    simp only [adjust, if_pos h]
  · intro c a h
    simp only [adjust]
    rw [if_neg (by linarith), if_pos h]
  · intro c a h1 h2
    simp only [adjust]
    rw [if_neg (by linarith), if_neg (by linarith)]
  · intro m a h
    simp only [adjust, if_pos h]
    rfl
  · intro m a h
    simp only [adjust]
    rw [if_neg (by linarith), if_pos h]
    rfl
  · intro om a
    cases om with
    | none => simp only [adjust]; split_ifs <;> simp [levelUp, levelDown]
    | some m => simp only [adjust]; split_ifs <;> simp [levelUp, levelDown]
  · intro om a
    cases om with
    | none => simp only [adjust]; split_ifs <;> simp [levelUp, levelDown]
    | some m => simp only [adjust]; split_ifs <;> simp [levelUp, levelDown]

/-- Witness for C6: the mastery-up conjunct applied at a concrete input. -/
theorem adjust_spec_witness :
    adjust Level.Beginner (some 90) 0 = levelUp Level.Beginner :=
  adjust_spec.1 Level.Beginner 90 0 (by norm_num)

/-- Translated from the source (`DashboardPage`): the Stability Score shown
by the dashboard.  The component reads
`const csi = progress.cognitive_strain_index ?? 0` and
`const stabilityScore = Math.max(0, Math.round(100 - csi))`; `Math.round`
rounds half toward positive infinity, matching `round` on `ℚ`. -/
def stabilityScore (cognitive_strain_index : Option ℚ) : ℤ :=
  max 0 (round ((100 : ℚ) - cognitive_strain_index.getD 0))

/-- Claim C10: the dashboard Stability Score equals
`max(0, round(100 - cognitive_strain_index))`; a missing strain index is
treated as `0`, displaying `100`; and the displayed value is never negative,
including when the strain index exceeds `100`. -/
theorem stabilityScore_spec :
    (∀ c : ℚ, stabilityScore (some c) = max 0 (round ((100 : ℚ) - c))) ∧
    stabilityScore none = 100 ∧
    (∀ o : Option ℚ, 0 ≤ stabilityScore o) ∧
    stabilityScore (some 120) = 0 := by
  refine ⟨?_, ?_, ?_, ?_⟩
  · intro c
    rfl
  · simp [stabilityScore]
  · intro o
    exact le_max_left 0 _
  · simp [stabilityScore]

/-- Drop leading space characters from a character list. -/
def dropLeadingSpaces : List Char → List Char
  | [] => []
  | c :: cs => if c = ' ' then dropLeadingSpaces cs else c :: cs

/-- Trim space characters from both ends of a character list. -/
def trimChars (cs : List Char) : List Char :=
  dropLeadingSpaces ((dropLeadingSpaces cs.reverse).reverse)

/-- Whitespace-trimmed, lowercased form of a string. -/
def normalizeText (s : String) : String :=
  String.mk (trimChars (s.data.map Char.toLower))

/-- Modelled from the spec: the fixed token map of the true/false scorer
(`{"true","yes","1"} → true`, the matching negative tokens → false, anything
else unscoreable). -/
def parseBool (s : String) : Option Bool :=
  if normalizeText s ∈ ["true", "yes", "1"] then some true
  else if normalizeText s ∈ ["false", "no", "0"] then some false
  else none

/-- `leadsList needle hay` is true when `needle` is an initial run of
`hay`. -/
def leadsList : List Char → List Char → Bool
  | [], _ => true
  | _ :: _, [] => false
  | a :: as, b :: bs => a == b && leadsList as bs

/-- `hasRun needle hay` is true when `needle` occurs contiguously inside
`hay`. -/
def hasRun (needle : List Char) : List Char → Bool
  | [] => needle.isEmpty
  | b :: bs => leadsList needle (b :: bs) || hasRun needle bs

/-- Modelled from the spec: `score(question_type, expected, submitted)` of
the AnswerScorer (`performance_tracker.py` is not in the available
sources).  MCQ and short answer use case-insensitive trimmed exact match;
true/false normalizes both sides through the token map and scores false
when either side is unscoreable; open-ended checks case-insensitive
containment of the expected answer inside the submitted one; a missing
field (modelled as `none`) scores false. -/
def score (question_type : String) (expected submitted : Option String) : Bool :=
  match expected, submitted with
  | some e, some s =>
    if question_type = "mcq" ∨ question_type = "short_answer" then
      normalizeText e == normalizeText s
    else if question_type = "true_false" then
      match parseBool e, parseBool s with
      | some be, some bs => be == bs
      | _, _ => false
    else if question_type = "open_ended" then
      hasRun (normalizeText e).data (normalizeText s).data
    else false
  | _, _ => false

/-- Modelled from the spec: a missing (or non-numeric) response time is
substituted by `0` rather than raising. -/
def resolveResponseTime (response_time : Option ℚ) : ℚ :=
  response_time.getD 0

/-- Claim C8: the scorer is a total pure function (determinism, absence of
side effects and of exceptions are captured by its embedding as a total
Lean function): a missing expected or submitted field scores false, an
unscoreable true/false token scores false, and a missing response time is
treated as `0`. -/
theorem score_safe_defaults :
    (∀ (qt : String) (s : Option String), score qt none s = false) ∧
    (∀ (qt : String) (e : Option String), score qt e none = false) ∧
    (∀ e s : String, parseBool e = none →
      score "true_false" (some e) (some s) = false) ∧
    (∀ e s : String, parseBool s = none →
      score "true_false" (some e) (some s) = false) ∧
    resolveResponseTime none = 0 := by
  refine ⟨?_, ?_, ?_, ?_, rfl⟩
  · intro qt s
    cases s <;> rfl
  · intro qt e
    cases e <;> rfl
  · intro e s h
    simp [score, h]
  · intro e s h
    simp [score, h]
/-- Witness for C8: the unscoreable true/false conjunct applied at a
concrete input. -/
theorem score_safe_defaults_witness :
    score "true_false" (some "maybe") (some "true") = false :=
  score_safe_defaults.2.2.1 "maybe" "true" (by decide)

/-- The three stress interventions. -/
inductive StressAction where
  | switch_to_review
  | micro_break
  | simplified_explanation
deriving DecidableEq, Repr

/-- The name under which an intervention is logged in `stress_history`. -/
def StressAction.name : StressAction → String
  | StressAction.switch_to_review => "switch_to_review"
  | StressAction.micro_break => "micro_break"
  | StressAction.simplified_explanation => "simplified_explanation"

/-- The last element of a rational list (`0` for the empty list). -/
def lastResponse (response_times : List ℚ) : ℚ :=
  response_times.getLast?.getD 0

/-- The last `n` elements of a list. -/
def lastN {α : Type} (n : ℕ) (xs : List α) : List α :=
  xs.drop (xs.length - n)

/-- Percentage of `true` entries in a correctness window (`0` for the empty
window). -/
def rollingAccuracy (window : List Bool) : ℚ :=
  100 * (window.count true : ℚ) / window.length

/-- Modelled from the spec: trigger 2 of the StressDetector — the latest
response time exceeds both 2.5 times the mean of all prior response times
(excluding itself) and 30 seconds, with at least 2 samples present. -/
def spikeTrigger (response_times : List ℚ) : Prop :=
  2 ≤ response_times.length ∧
  2.5 * mean response_times.dropLast < lastResponse response_times ∧
  30 < lastResponse response_times

instance (response_times : List ℚ) : Decidable (spikeTrigger response_times) := by
  unfold spikeTrigger
  infer_instance

/-- Modelled from the spec: trigger 3 of the StressDetector — at least 5
rolling results and accuracy over the last 5 below 30%. -/
def collapseTrigger (rolling_results : List Bool) : Prop :=
  5 ≤ rolling_results.length ∧ rollingAccuracy (lastN 5 rolling_results) < 30

instance (rolling_results : List Bool) : Decidable (collapseTrigger rolling_results) := by
  unfold collapseTrigger
  infer_instance

/-- Modelled from the spec: `detect(rolling_results, response_times,
mistake_streak)` of the StressDetector (`performance_tracker.py` is not in
the available sources).  Fixed priority order, first match returned:
mistake streak ≥ 3, then the response-time spike, then the rolling-accuracy
collapse, else no trigger. -/
def detect (rolling_results : List Bool) (response_times : List ℚ)
    (mistake_streak : ℕ) : Option StressAction :=
  if 3 ≤ mistake_streak then some StressAction.switch_to_review
  else if spikeTrigger response_times then some StressAction.micro_break
  else if collapseTrigger rolling_results then some StressAction.simplified_explanation
  else none

/-- Modelled from the spec: every invocation appends the chosen action name
to `stress_history` exactly when a trigger fired. -/
def stressLog (stress_history : List String) (rolling_results : List Bool)
    (response_times : List ℚ) (mistake_streak : ℕ) : List String :=
  match detect rolling_results response_times mistake_streak with
  | some a => stress_history ++ [a.name]
  | none => stress_history

/-- Claim C3: `detect` returns the first matching trigger in the fixed
order mistake streak ≥ 3 → `switch_to_review`, then the response-time
spike (latest sample against the mean of all prior samples, and over 30
seconds) → `micro_break`, then five-sample accuracy below 30% →
`simplified_explanation`, else no trigger; a mistake streak ≥ 3 yields
`switch_to_review` regardless of the other two conditions; and
`stress_history` receives an appended action name exactly when a trigger
fired. -/
theorem detect_priority_order :
    (∀ (r : List Bool) (ts : List ℚ) (m : ℕ), 3 ≤ m →
      detect r ts m = some StressAction.switch_to_review) ∧
    (∀ (r : List Bool) (ts : List ℚ) (m : ℕ), m < 3 → spikeTrigger ts →
      detect r ts m = some StressAction.micro_break) ∧
    (∀ (r : List Bool) (ts : List ℚ) (m : ℕ), m < 3 → ¬spikeTrigger ts →
      collapseTrigger r → detect r ts m = some StressAction.simplified_explanation) ∧
    (∀ (r : List Bool) (ts : List ℚ) (m : ℕ), m < 3 → ¬spikeTrigger ts →
      ¬collapseTrigger r → detect r ts m = none) ∧
    (∀ (h : List String) (r : List Bool) (ts : List ℚ) (m : ℕ) (a : StressAction),
      detect r ts m = some a → stressLog h r ts m = h ++ [a.name]) ∧
    (∀ (h : List String) (r : List Bool) (ts : List ℚ) (m : ℕ),
      detect r ts m = none → stressLog h r ts m = h) := by
  refine ⟨?_, ?_, ?_, ?_, ?_, ?_⟩
  · intro r ts m h
    simp [detect, h]
  · intro r ts m h1 h2
    simp [detect, h2]
    omega
  · intro r ts m h1 h2 h3
    simp [detect, h2, h3]
    omega
  · intro r ts m h1 h2 h3
    simp [detect, h2, h3]
    omega
  · intro h r ts m a hd
    simp [stressLog, hd]
  · intro h r ts m hd
    simp [stressLog, hd]

/-- Witness for C3: the priority conjunct applied at a concrete input where
the other two triggers are irrelevant. -/
theorem detect_priority_order_witness :
    detect [false, false, false, false, false] [1, 100] 3 =
      some StressAction.switch_to_review :=
  detect_priority_order.1 [false, false, false, false, false] [1, 100] 3
    (by norm_num)

/-- Per-key correct/total counters of the accuracy maps. -/
structure Stats where
  correct : ℕ
  total : ℕ
deriving DecidableEq, Repr

/-- Sum of the `correct` counters over an accuracy map. -/
def totalCorrectOf (m : List (String × Stats)) : ℕ :=
  (m.map (fun p => p.2.correct)).sum

/-- Sum of the `total` counters over an accuracy map. -/
def totalAttemptsOf (m : List (String × Stats)) : ℕ :=
  (m.map (fun p => p.2.total)).sum

/-- Modelled from the spec: the accuracy sub-score of the MasteryEstimator,
`100 * total_correct / total_attempts`, `0` when there are no attempts. -/
def accuracyComponent (topic_accuracy : List (String × Stats)) : ℚ :=
  if totalAttemptsOf topic_accuracy = 0 then 0
  else 100 * (totalCorrectOf topic_accuracy : ℚ) / (totalAttemptsOf topic_accuracy : ℚ)

/-- Modelled from the spec: the coverage sub-score of the MasteryEstimator,
`min(1, (unique_topics + unique_types) / 8) * 100`. -/
def coverageComponent (topic_accuracy type_accuracy : List (String × Stats)) : ℚ :=
  min 1 ((topic_accuracy.length + type_accuracy.length : ℚ) / 8) * 100

/-- Modelled from the spec: the streak sub-score of the MasteryEstimator,
`min(best_streak, 10) / 10 * 100`. -/
def masteryStreakComponent (best_streak : ℕ) : ℚ :=
  min (best_streak : ℚ) 10 / 10 * 100

/-- Modelled from the spec: `compute(topic_accuracy, type_accuracy,
best_streak)` of the MasteryEstimator (`performance_tracker.py` is not in
the available sources).  Weighted combination 0.60/0.20/0.20 of the three
sub-scores, clamped to `[0, 100]`. -/
def compute_mastery (topic_accuracy type_accuracy : List (String × Stats))
    (best_streak : ℕ) : ℚ :=
  clampQ (0.60 * accuracyComponent topic_accuracy +
    0.20 * coverageComponent topic_accuracy type_accuracy +
    0.20 * masteryStreakComponent best_streak)

/-- Claim C7: on any valid accuracy maps (per-key `correct ≤ total`),
`compute_mastery` equals the unclamped weighted sum
`0.60 * accuracy + 0.20 * coverage + 0.20 * streak` (the clamp is a no-op
there), and on all inputs whatsoever the result lies in `[0, 100]`. -/
theorem compute_mastery_spec :
    (∀ (ta ty : List (String × Stats)) (b : ℕ),
      (∀ p ∈ ta, (Prod.snd p).correct ≤ (Prod.snd p).total) →
      compute_mastery ta ty b = 0.60 * accuracyComponent ta +
        0.20 * coverageComponent ta ty + 0.20 * masteryStreakComponent b) ∧
    (∀ (ta ty : List (String × Stats)) (b : ℕ),
      0 ≤ compute_mastery ta ty b ∧ compute_mastery ta ty b ≤ 100) := by
  have hcov : ∀ (ta ty : List (String × Stats)),
      0 ≤ coverageComponent ta ty ∧ coverageComponent ta ty ≤ 100 := by
    intro ta ty
    constructor
    · have h8 : (0 : ℚ) ≤ (ta.length + ty.length : ℚ) / 8 := by positivity
      have := le_min (le_of_lt one_pos) h8
      unfold coverageComponent
      nlinarith [min_le_left (1 : ℚ) ((ta.length + ty.length : ℚ) / 8)]
    · unfold coverageComponent
      nlinarith [min_le_left (1 : ℚ) ((ta.length + ty.length : ℚ) / 8)]
  have hstreak : ∀ b : ℕ, 0 ≤ masteryStreakComponent b ∧ masteryStreakComponent b ≤ 100 := by
    intro b
    unfold masteryStreakComponent
    constructor
    · have h0 : (0 : ℚ) ≤ min (b : ℚ) 10 := le_min (by positivity) (by norm_num)
      nlinarith
    · have h10 : min (b : ℚ) 10 ≤ 10 := min_le_right _ _
      nlinarith
  have haccnn : ∀ ta : List (String × Stats), 0 ≤ accuracyComponent ta := by
    intro ta
    unfold accuracyComponent
    split_ifs
    · exact le_refl 0
    · positivity
  have hacc100 : ∀ ta : List (String × Stats),
      (∀ p ∈ ta, (Prod.snd p).correct ≤ (Prod.snd p).total) →
      accuracyComponent ta ≤ 100 := by
    intro ta hv
    unfold accuracyComponent
    split_ifs with h0
    · norm_num
    · have hle : totalCorrectOf ta ≤ totalAttemptsOf ta := by
        unfold totalCorrectOf totalAttemptsOf
        exact List.sum_le_sum hv
      have hpos : (0 : ℚ) < (totalAttemptsOf ta : ℚ) := by
        have : 0 < totalAttemptsOf ta := Nat.pos_of_ne_zero h0
        exact_mod_cast this
      rw [div_le_iff₀ hpos]
      have hcast : (totalCorrectOf ta : ℚ) ≤ (totalAttemptsOf ta : ℚ) := by
        exact_mod_cast hle
      nlinarith
  refine ⟨?_, ?_⟩
  · intro ta ty b hv
    have h1 := haccnn ta
    have h2 := hacc100 ta hv
    have h3 := hcov ta ty
    have h4 := hstreak b
    unfold compute_mastery clampQ
    rw [min_eq_left (by nlinarith), max_eq_right (by nlinarith)]
  · intro ta ty b
    unfold compute_mastery clampQ
    constructor
    · exact le_max_left 0 _
    · exact max_le (by norm_num) (min_le_right _ 100)

/-- Witness for C7: the no-clamp conjunct applied at a concrete valid
input. -/
theorem compute_mastery_spec_witness :
    compute_mastery [("algebra", ⟨1, 2⟩)] [] 0 =
      0.60 * accuracyComponent [("algebra", ⟨1, 2⟩)] +
      0.20 * coverageComponent [("algebra", ⟨1, 2⟩)] [] +
      0.20 * masteryStreakComponent 0 :=
  compute_mastery_spec.1 [("algebra", ⟨1, 2⟩)] [] 0 (by decide)

/-- Keys of an association-list map. -/
def keys {α : Type} (m : List (String × α)) : List String :=
  m.map Prod.fst

/-- Look up a key in an accuracy map (zero counters when absent). -/
def getStats (m : List (String × Stats)) (k : String) : Stats :=
  ((m.find? (fun p => p.1 == k)).map Prod.snd).getD ⟨0, 0⟩

/-- One more attempt recorded on a counter pair. -/
def bump (s : Stats) (was_correct : Bool) : Stats :=
  ⟨s.correct + (if was_correct then 1 else 0), s.total + 1⟩

/-- Upsert into an accuracy map: the key's counters are bumped, keeping one
entry per key (the spec's maps are keyed, insertion order irrelevant). -/
def bumpStats (m : List (String × Stats)) (k : String) (was_correct : Bool) :
    List (String × Stats) :=
  (k, bump (getStats m k) was_correct) :: m.filter (fun p => !(p.1 == k))

/-- Append with fixed capacity and FIFO eviction: the oldest entries are
dropped once the capacity is exceeded. -/
def appendCapped {α : Type} (cap : ℕ) (xs : List α) (x : α) : List α :=
  let ys := xs ++ [x]
  ys.drop (ys.length - cap)

/-- Per-topic weakness record (the spec's `last_updated` wall-clock
timestamp carries no engine logic and is omitted from the embedding). -/
structure WeaknessRecord where
  mastery_score : ℚ
  error_types : List String
  recurring_patterns : List String
deriving DecidableEq, Repr

/-- Modelled from the spec: a fixed stopword list for keyword extraction
(the spec requires stopword filtering without fixing the word list). -/
def stopwords : List String :=
  ["the", "and", "that", "this", "with", "from", "have", "what"]

/-- Split a character list into space-separated words. -/
def wordsOfChars : List Char → List (List Char)
  | [] => [[]]
  | c :: cs =>
    let r := wordsOfChars cs
    if c = ' ' then [] :: r
    else (c :: r.headD []) :: r.tail

/-- Modelled from the spec: keyword tokens of an incorrect answer —
lowercased, stopword-filtered, longer than 3 characters. -/
def extractPatterns (text : String) : List String :=
  ((wordsOfChars (text.data.map Char.toLower)).filter
    (fun w => decide (3 < w.length) && !(stopwords.contains (String.mk w)))).map
    String.mk

/-- Insert one pattern into the FIFO pattern set (capacity 20, duplicates
ignored, oldest evicted on overflow). -/
def insertPattern (ps : List String) (p : String) : List String :=
  if ps.contains p then ps else appendCapped 20 ps p

/-- Insert a batch of patterns in order. -/
def insertPatterns (ps : List String) (fresh : List String) : List String :=
  fresh.foldl insertPattern ps

/-- Remove a topic's record from the weakness profile. -/
def removeTopic (wp : List (String × WeaknessRecord)) (topic : String) :
    List (String × WeaknessRecord) :=
  wp.filter (fun p => !(p.1 == topic))

/-- Upsert a topic's record into the weakness profile. -/
def setTopic (wp : List (String × WeaknessRecord)) (topic : String)
    (r : WeaknessRecord) : List (String × WeaknessRecord) :=
  (topic, r) :: removeTopic wp topic

/-- Look up a topic's record (empty record when absent). -/
def getRecord (wp : List (String × WeaknessRecord)) (topic : String) :
    WeaknessRecord :=
  ((wp.find? (fun p => p.1 == topic)).map Prod.snd).getD ⟨0, [], []⟩

/-- Modelled from the spec: the WeaknessProfiler update
(`performance_tracker.py` is not in the available sources).  After the
topic's accuracy counters were bumped: with fewer than 2 attempts nothing
happens; otherwise mastery is recomputed as `100 * correct / total` and the
record is upserted when `mastery < 60` or `total < 3` (wrong answers add
the question type to `error_types` and keyword tokens to
`recurring_patterns`), and the topic is pruned entirely once
`mastery ≥ 60` and `total ≥ 3` — checked on every update. -/
def weaknessUpdate (topic_accuracy : List (String × Stats))
    (wp : List (String × WeaknessRecord)) (topic question_type : String)
    (was_correct : Bool) (submitted_text : String) :
    List (String × WeaknessRecord) :=
  let st := getStats topic_accuracy topic
  if st.total < 2 then wp
  else
    if 100 * (st.correct : ℚ) / (st.total : ℚ) < 60 ∨ st.total < 3 then
      let old := getRecord wp topic
      let et :=
        if was_correct then old.error_types
        else if old.error_types.contains question_type then old.error_types
        else old.error_types ++ [question_type]
      let rp :=
        if was_correct then old.recurring_patterns
        else insertPatterns old.recurring_patterns (extractPatterns submitted_text)
      setTopic wp topic ⟨100 * (st.correct : ℚ) / (st.total : ℚ), et, rp⟩
    else removeTopic wp topic

/-- One scored answer of a submission batch. -/
structure Answer where
  topic : String
  question_type : String
  was_correct : Bool
  response_time : ℚ
  submitted_text : String
deriving DecidableEq, Repr

/-- The per-session aggregate state (`cognitive_strain_index` and
`adaptive_mode` are recomputed wholesale from this state by `compute_csi`
and `classify` and are not stored incrementally). -/
structure SessionPerformanceState where
  topic_accuracy : List (String × Stats)
  type_accuracy : List (String × Stats)
  response_times : List ℚ
  rolling_results : List Bool
  correct_streak : ℕ
  mistake_streak : ℕ
  best_streak : ℕ
  total_correct : ℕ
  total_attempts : ℕ
  weakness_profile : List (String × WeaknessRecord)
  stress_history : List String
deriving DecidableEq, Repr

/-- The state at session start. -/
def initState : SessionPerformanceState :=
  ⟨[], [], [], [], 0, 0, 0, 0, 0, [], []⟩

/-- Modelled from the spec: the per-answer state update of the engine —
accuracy counters, capped rolling windows (50 response times, 20 results),
mutually exclusive streak counters, best-streak tracking, the
WeaknessProfiler update and the StressDetector log. -/
def recordAnswer (s : SessionPerformanceState) (a : Answer) :
    SessionPerformanceState :=
  let topicAcc := bumpStats s.topic_accuracy a.topic a.was_correct
  let rts := appendCapped 50 s.response_times a.response_time
  let rolling := appendCapped 20 s.rolling_results a.was_correct
  let cs := if a.was_correct then s.correct_streak + 1 else 0
  let ms := if a.was_correct then 0 else s.mistake_streak + 1
  { topic_accuracy := topicAcc
    type_accuracy := bumpStats s.type_accuracy a.question_type a.was_correct
    response_times := rts
    rolling_results := rolling
    correct_streak := cs
    mistake_streak := ms
    best_streak := max s.best_streak cs
    total_correct := s.total_correct + (if a.was_correct then 1 else 0)
    total_attempts := s.total_attempts + 1
    weakness_profile := weaknessUpdate topicAcc s.weakness_profile a.topic
      a.question_type a.was_correct a.submitted_text
    stress_history := stressLog s.stress_history rolling rts ms }

/-- One exercise submission: the batch of answers folded through the
per-answer update. -/
def submitBatch (s : SessionPerformanceState) (batch : List Answer) :
    SessionPerformanceState :=
  batch.foldl recordAnswer s

/-- States produced from the initial state by finitely many exercise
submissions. -/
inductive Reachable : SessionPerformanceState → Prop where
  | init : Reachable initState
  | step (s : SessionPerformanceState) (batch : List Answer) :
      Reachable s → Reachable (submitBatch s batch)

/-- The state invariants claimed for every reachable state. -/
def Inv (s : SessionPerformanceState) : Prop :=
  s.total_correct ≤ s.total_attempts ∧
  (∀ p ∈ s.topic_accuracy, (Prod.snd p).correct ≤ (Prod.snd p).total) ∧
  s.response_times.length ≤ 50 ∧
  s.rolling_results.length ≤ 20 ∧
  (s.correct_streak = 0 ∨ s.mistake_streak = 0) ∧
  s.correct_streak ≤ s.best_streak

theorem length_appendCapped {α : Type} (cap : ℕ) (xs : List α) (x : α) :
    (appendCapped cap xs x).length ≤ cap := by
  simp only [appendCapped, List.length_drop, List.length_append, List.length_cons,
    List.length_nil]
  omega

theorem getStats_le {m : List (String × Stats)}
    (h : ∀ p ∈ m, (Prod.snd p).correct ≤ (Prod.snd p).total) (k : String) :
    (getStats m k).correct ≤ (getStats m k).total := by
  unfold getStats
  cases hf : m.find? (fun p => p.1 == k) with
  | none => simp
  | some p =>
    simp only [Option.map_some', Option.getD_some]
    exact h p (List.mem_of_find?_eq_some hf)

theorem bumpStats_valid {m : List (String × Stats)} {k : String} {c : Bool}
    (h : ∀ p ∈ m, (Prod.snd p).correct ≤ (Prod.snd p).total) :
    ∀ p ∈ bumpStats m k c, (Prod.snd p).correct ≤ (Prod.snd p).total := by
  intro p hp
  rcases List.mem_cons.mp hp with heq | hmem
  · rw [heq]
    have hg := getStats_le h k
    simp only [bump]
    split_ifs <;> omega
  · exact h p (List.mem_of_mem_filter hmem)

theorem recordAnswer_Inv {s : SessionPerformanceState} {a : Answer} (h : Inv s) :
    Inv (recordAnswer s a) := by
  obtain ⟨h1, h2, h3, h4, h5, h6⟩ := h
  refine ⟨?_, ?_, ?_, ?_, ?_, ?_⟩
  · show s.total_correct + (if a.was_correct then 1 else 0) ≤ s.total_attempts + 1
    split_ifs <;> omega
  · exact bumpStats_valid h2
  · exact length_appendCapped 50 s.response_times a.response_time
  · exact length_appendCapped 20 s.rolling_results a.was_correct
  · show (if a.was_correct then s.correct_streak + 1 else 0) = 0 ∨
      (if a.was_correct then 0 else s.mistake_streak + 1) = 0
    cases a.was_correct <;> simp
  · exact le_max_right _ _

theorem recordAnswer_best_mono (s : SessionPerformanceState) (a : Answer) :
    s.best_streak ≤ (recordAnswer s a).best_streak :=
  le_max_left _ _

theorem submitBatch_Inv {batch : List Answer} {s : SessionPerformanceState}
    (h : Inv s) : Inv (submitBatch s batch) := by
  induction batch generalizing s with
  | nil => exact h
  | cons x xs ih => exact ih (recordAnswer_Inv h)

theorem submitBatch_best_mono (s : SessionPerformanceState) (batch : List Answer) :
    s.best_streak ≤ (submitBatch s batch).best_streak := by
  induction batch generalizing s with
  | nil => exact le_refl _
  | cons x xs ih =>
    exact le_trans (recordAnswer_best_mono s x) (ih (recordAnswer s x))

theorem Inv_initState : Inv initState := by
  refine ⟨le_refl _, ?_, ?_, ?_, Or.inl rfl, le_refl _⟩ <;> simp [initState]

/-- Claim C5: every reachable state satisfies the session invariants —
`total_correct ≤ total_attempts`, per-topic `correct ≤ total`, the rolling
windows respect their capacities 50 and 20, the two streak counters are
never simultaneously nonzero, `best_streak` dominates `correct_streak`
(nonnegativity of all counters holds by their `ℕ` type) — and
`best_streak` never decreases across a submission. -/
theorem session_state_invariants :
    (∀ s : SessionPerformanceState, Reachable s → Inv s) ∧
    (∀ (s : SessionPerformanceState) (batch : List Answer), Reachable s →
      s.best_streak ≤ (submitBatch s batch).best_streak) := by
  constructor
  · intro s h
    induction h with
    | init => exact Inv_initState
    | step s batch hr ih => exact submitBatch_Inv ih
  · intro s batch _
    exact submitBatch_best_mono s batch

/-- Witness for C5: the invariants at the initial state and across an empty
submission. -/
theorem session_state_invariants_witness :
    Inv initState ∧
      initState.best_streak ≤ (submitBatch initState []).best_streak :=
  ⟨session_state_invariants.1 initState Reachable.init,
   session_state_invariants.2 initState [] Reachable.init⟩

theorem mem_keys_setTopic (wp : List (String × WeaknessRecord)) (topic : String)
    (r : WeaknessRecord) : topic ∈ keys (setTopic wp topic r) := by
  simp [keys, setTopic]

theorem not_mem_keys_removeTopic (wp : List (String × WeaknessRecord))
    (topic : String) : topic ∉ keys (removeTopic wp topic) := by
  intro h
  unfold keys removeTopic at h
  rcases List.mem_map.mp h with ⟨p, hp, hfst⟩
  have hcond := (List.mem_filter.mp hp).2
  rw [hfst] at hcond
  simp at hcond

/-- The scripted recovery sequence of the spec: wrong, wrong, correct,
correct, correct on one topic. -/
def recoverySeq : List Answer :=
  [⟨"x", "mcq", false, 5, "aaaa"⟩, ⟨"x", "mcq", false, 5, "aaaa"⟩,
   ⟨"x", "mcq", true, 5, "aaaa"⟩, ⟨"x", "mcq", true, 5, "aaaa"⟩,
   ⟨"x", "mcq", true, 5, "aaaa"⟩]

/-- Claim C4: after every per-answer update, the updated topic is present in
`weakness_profile` iff its recomputed mastery `100 * correct / total` is
below 60 or its attempt total below 3 (given at least 2 attempts) — so an
update reaching mastery ≥ 60 with total ≥ 3 removes the topic entirely,
record and accumulated patterns included, on every update and not only at
insertion; and the scripted sequence wrong, wrong, correct, correct,
correct on topic `"x"` ends with `"x"` absent from the profile. -/
theorem weakness_profile_recovery :
    (∀ (s : SessionPerformanceState) (a : Answer),
      2 ≤ (getStats (recordAnswer s a).topic_accuracy a.topic).total →
      (a.topic ∈ keys (recordAnswer s a).weakness_profile ↔
        (100 * ((getStats (recordAnswer s a).topic_accuracy a.topic).correct : ℚ) /
            ((getStats (recordAnswer s a).topic_accuracy a.topic).total : ℚ) < 60 ∨
          (getStats (recordAnswer s a).topic_accuracy a.topic).total < 3))) ∧
    "x" ∉ keys (submitBatch initState recoverySeq).weakness_profile := by
  constructor
  · intro s a h
    have hwp : (recordAnswer s a).weakness_profile =
        weaknessUpdate (recordAnswer s a).topic_accuracy s.weakness_profile
          a.topic a.question_type a.was_correct a.submitted_text := rfl
    rw [hwp]
    simp only [weaknessUpdate]
    rw [if_neg (by omega)]
    by_cases hc : (100 * ((getStats (recordAnswer s a).topic_accuracy a.topic).correct : ℚ) /
        ((getStats (recordAnswer s a).topic_accuracy a.topic).total : ℚ) < 60 ∨
      (getStats (recordAnswer s a).topic_accuracy a.topic).total < 3)
    · rw [if_pos hc]
      exact iff_of_true (mem_keys_setTopic _ _ _) hc
    · rw [if_neg hc]
      exact iff_of_false (not_mem_keys_removeTopic _ _) hc
  · norm_num [submitBatch, recordAnswer, weaknessUpdate, bumpStats, getStats,
      bump, appendCapped, stressLog, detect, spikeTrigger, collapseTrigger,
      mean, lastResponse, lastN, rollingAccuracy, setTopic, removeTopic,
      getRecord, insertPatterns, insertPattern, extractPatterns, wordsOfChars,
      stopwords, keys, initState, recoverySeq, StressAction.name]

/-- The wrong answer used to instantiate the C4 witness. -/
def wrongX : Answer := ⟨"x", "mcq", false, 5, "aaaa"⟩

/-- Witness for C4: the membership conjunct applied after two wrong answers
on topic `"x"`. -/
theorem weakness_profile_recovery_witness :
    "x" ∈ keys (recordAnswer (recordAnswer initState wrongX) wrongX).weakness_profile ↔
      (100 * ((getStats (recordAnswer (recordAnswer initState wrongX) wrongX).topic_accuracy
            "x").correct : ℚ) /
          ((getStats (recordAnswer (recordAnswer initState wrongX) wrongX).topic_accuracy
            "x").total : ℚ) < 60 ∨
        (getStats (recordAnswer (recordAnswer initState wrongX) wrongX).topic_accuracy
          "x").total < 3) :=
  weakness_profile_recovery.1 (recordAnswer initState wrongX) wrongX (by decide)

/-- The four question types of the data model. -/
def allowedTypes : List String :=
  ["mcq", "true_false", "short_answer", "open_ended"]

/-- States produced from the initial state by finitely many submissions
whose answers carry one of the four declared question types. -/
inductive ReachableTyped : SessionPerformanceState → Prop where
  | init : ReachableTyped initState
  | step (s : SessionPerformanceState) (batch : List Answer) :
      ReachableTyped s → (∀ a ∈ batch, a.question_type ∈ allowedTypes) →
      ReachableTyped (submitBatch s batch)

theorem mem_keys_bumpStats {m : List (String × Stats)} {k q : String} {c : Bool}
    (h : k ∈ keys (bumpStats m q c)) : k = q ∨ k ∈ keys m := by
  unfold keys bumpStats at h
  rcases List.mem_map.mp h with ⟨p, hp, hfst⟩
  rcases List.mem_cons.mp hp with heq | ht
  · left
    rw [← hfst, heq]
  · right
    exact List.mem_map.mpr ⟨p, List.mem_of_mem_filter ht, hfst⟩

theorem recordAnswer_types {s : SessionPerformanceState} {a : Answer}
    (h : ∀ k ∈ keys s.type_accuracy, k ∈ allowedTypes)
    (ha : a.question_type ∈ allowedTypes) :
    ∀ k ∈ keys (recordAnswer s a).type_accuracy, k ∈ allowedTypes := by
  intro k hk
  have hk2 : k ∈ keys (bumpStats s.type_accuracy a.question_type a.was_correct) := hk
  rcases mem_keys_bumpStats hk2 with heq | hm
  · rw [heq]
    exact ha
  · exact h k hm

theorem submitBatch_types {batch : List Answer} {s : SessionPerformanceState}
    (h : ∀ k ∈ keys s.type_accuracy, k ∈ allowedTypes)
    (hb : ∀ a ∈ batch, a.question_type ∈ allowedTypes) :
    ∀ k ∈ keys (submitBatch s batch).type_accuracy, k ∈ allowedTypes := by
  induction batch generalizing s with
  | nil => exact h
  | cons x xs ih =>
    exact ih (recordAnswer_types h (hb x (List.mem_cons_self x xs)))
      (fun a haa => hb a (List.mem_cons_of_mem x haa))

/-- Claim C9: in every state reachable through submissions carrying the four
declared question types, every key of `type_accuracy` is one of `mcq`,
`true_false`, `short_answer`, `open_ended` — no other key (such as `qa`)
ever appears. -/
theorem type_accuracy_keys_closed :
    ∀ s : SessionPerformanceState, ReachableTyped s →
      ∀ k ∈ keys s.type_accuracy, k ∈ allowedTypes := by
  intro s h
  induction h with
  | init =>
    intro k hk
    simp [initState, keys] at hk
  | step s batch hr hb ih => exact submitBatch_types ih hb

/-- Witness for C9: the key invariant after one concrete typed
submission. -/
theorem type_accuracy_keys_closed_witness :
    "mcq" ∈ allowedTypes :=
  type_accuracy_keys_closed (submitBatch initState [⟨"t", "mcq", true, 1, ""⟩])
    (ReachableTyped.step initState [⟨"t", "mcq", true, 1, ""⟩]
      ReachableTyped.init (by decide))
    "mcq" (by decide)

end NeuroLearn
